import Mathlib

/-!
Smart parking spot finder: occupancy decision and synchronisation loop.

A shallow embedding of `Parking-Spot-Finder.c` (an ESP32 sketch).  The sketch's
globals `is_occupied` and `last_publish_time`, the MQTT client's connection
flag and the two LED outputs form the `State`.  Everything the sketch reads
from the outside world during one pass of `loop()` (sensor pings, `millis()`
readings, results of the broker and HTTP calls) is an explicit input, the
`Tick`.  Every call that acts on the outside world is recorded as an `Event`,
in program order.
-/

namespace SmartParking

/-! Section: Constants of the sketch -/

/-- Number of values of an `unsigned long` on the ESP32 (32 bits). -/
def WORD : Nat := 2 ^ 32

/-- Line 42: `const unsigned long publish_interval = 30000;`. -/
def publish_interval : Nat := 30000

/-- Line 35: `#define RED_LED 25`. -/
def RED_LED : Nat := 25

/-- Line 36: `#define GREEN_LED 26`. -/
def GREEN_LED : Nat := 26

/-- Line 39: `const char* spot_id = "SPOT_01";`. -/
def spot_id : String := "SPOT_01"

/-- Line 13. -/
def mqtt_topic_status : String := "parking/spot/status"

/-- Line 14. -/
def mqtt_topic_control : String := "parking/spot/control"

/-! Section: Machine arithmetic -/

/-- The value `millis()` returns when the true time since boot is `raw`
milliseconds: an `unsigned long`, hence reduced modulo `2 ^ 32`. -/
def millis (raw : Nat) : Nat := raw % WORD

/-- Subtraction of two `unsigned long` values, `a - b` modulo `2 ^ 32`. -/
def usub (a b : Nat) : Nat := (a % WORD + (WORD - b % WORD)) % WORD

/-! Section: Data model -/

/-- The JSON document built in `publish_status` (lines 129-133). -/
structure StatusMessage where
  spot_id : String
  status : String
  distance : Nat
  timestamp : Nat
deriving DecidableEq, Repr

/-- Calls that act on the outside world, recorded in program order.  A `serial`
event carries the fixed text of the line printed; the three prints of lines
82-84 are one event. -/
inductive Event where
  | digitalWrite (pin : Nat) (high : Bool)
  | mqttConnect (ok : Bool)
  | mqttSubscribe (topic : String)
  | mqttLoop
  | mqttPublish (topic : String) (msg : StatusMessage) (ok : Bool)
  | update_thingspeak (occupied : Bool)
  | httpGet (field1 : Bool) (code : Int)
  | update_om2m (data : StatusMessage)
  | httpPost (content : StatusMessage) (code : Int)
  | serial (line : String)
  | delay (ms : Nat)
deriving DecidableEq, Repr

/-- The mutable state: the globals of lines 40-41, the connection flag of
`mqtt_client`, and the levels of the two LED pins. -/
structure State where
  is_occupied : Bool
  last_publish_time : Nat
  mqtt_connected : Bool
  red : Bool
  green : Bool
deriving DecidableEq, Repr

/-- Results the three backends give during one `publish_status` call. -/
structure Backends where
  mqttOk : Bool
  wifiThingspeak : Bool
  thingspeakCode : Int
  wifiOm2m : Bool
  om2mCode : Int
deriving DecidableEq, Repr

/-- Everything one pass of `loop()` reads from the outside world.
`connect k` is the result of the `k`-th call of `mqtt_client.connect` made in
this pass; `distance` is the ping of line 81, `now` the clock of line 90,
`pubDistance` the ping of line 132, `stamp` the clock of line 133 and `done`
the clock of line 94. -/
structure Tick where
  connect : Nat → Bool
  distance : Nat
  now : Nat
  pubDistance : Nat
  stamp : Nat
  backends : Backends
  done : Nat

/-- The state in which `setup()` hands over to `loop()`: globals as declared on
lines 40-41, both LED pins still low, and the broker connected (the
`connect_mqtt()` of line 68 has returned). -/
def initial : State :=
  { is_occupied := false, last_publish_time := 0, mqtt_connected := true,
    red := false, green := false }

/-! Section: Operations -/

/-- The effect of `digitalWrite(pin, level)` on the two LED pins. -/
def digitalWrite (pin : Nat) (high : Bool) (s : State) : State :=
  if pin = RED_LED then { s with red := high }
  else if pin = GREEN_LED then { s with green := high }
  else s

/-- Lines 151-154. -/
def update_leds (s : State) : State × List Event :=
  let r : Bool := if s.is_occupied then true else false
  let g : Bool := if s.is_occupied then false else true
  (digitalWrite GREEN_LED g (digitalWrite RED_LED r s),
   [Event.digitalWrite RED_LED r, Event.digitalWrite GREEN_LED g])

/-- Lines 156-176; `wifi` is `WiFi.status() == WL_CONNECTED`, `httpCode` the
result of `http.GET()`. -/
def update_thingspeak (occupied : Bool) (wifi : Bool) (httpCode : Int) : List Event :=
  Event.update_thingspeak occupied ::
    (if wifi then
      [Event.httpGet occupied httpCode,
       if httpCode > 0 then Event.serial "ThingSpeak response"
       else Event.serial "Error on ThingSpeak request"]
    else [])

/-- Lines 213-236; `wifi` is `WiFi.status() == WL_CONNECTED`, `httpCode` the
result of `http.POST(content)`. -/
def update_om2m (data : StatusMessage) (wifi : Bool) (httpCode : Int) : List Event :=
  Event.update_om2m data ::
    (if wifi then
      [Event.httpPost data httpCode,
       if httpCode > 0 then Event.serial "OM2M update successful"
       else Event.serial "OM2M update failed"]
    else [])

/-- Lines 127-149.  `pubDistance` is the value of the `sonar.ping_cm()` call on
line 132 and `stamp` the clock read on line 133. -/
def publish_status (s : State) (pubDistance stamp : Nat) (b : Backends) : List Event :=
  let doc : StatusMessage :=
    { spot_id := spot_id,
      status := if s.is_occupied then "occupied" else "available",
      distance := pubDistance,
      timestamp := millis stamp }
  [Event.mqttPublish mqtt_topic_status doc b.mqttOk, Event.serial "Published status"]
    ++ update_thingspeak s.is_occupied b.wifiThingspeak b.thingspeakCode
    ++ update_om2m doc b.wifiOm2m b.om2mCode

/-- Line 87: `bool current_status = (distance > 0 && distance < 50);`. -/
def current_status (distance : Nat) : Bool :=
  decide (distance > 0) && decide (distance < 50)

/-- First disjunct of line 90: `current_status != is_occupied`. -/
def edgeDue (t : Tick) (s : State) : Bool :=
  current_status t.distance != s.is_occupied

/-- Second disjunct of line 90:
`millis() - last_publish_time > publish_interval`. -/
def heartbeatDue (t : Tick) (s : State) : Bool :=
  decide (usub (millis t.now) s.last_publish_time > publish_interval)

/-- Lines 78-97 of `loop()`: everything after the connection check. -/
def loopCycle (t : Tick) (s : State) : State × List Event :=
  let head : List Event := [Event.mqttLoop, Event.serial "Distance"]
  if edgeDue t s || heartbeatDue t s then
    let s1 : State := { s with is_occupied := current_status t.distance }
    let leds := update_leds s1
    let pub := publish_status leds.1 t.pubDistance t.stamp t.backends
    ({ leds.1 with last_publish_time := millis t.done },
     head ++ leds.2 ++ pub ++ [Event.delay 1000])
  else
    (s, head ++ [Event.delay 1000])

/-- Lines 100-114.  The `while (!mqtt_client.connected())` loop is unrolled at
most `fuel` times; `outcome k` is the result of the `k`-th call of
`mqtt_client.connect`.  `none` means the loop is still running when the fuel is
used up. -/
def connect_mqtt (outcome : Nat → Bool) : Nat → Nat → State → Option (State × List Event)
  | 0, _, s => if s.mqtt_connected then some (s, []) else none
  | fuel + 1, k, s =>
    if s.mqtt_connected then some (s, [])
    else if outcome k then
      (connect_mqtt outcome fuel (k + 1) { s with mqtt_connected := true }).map
        (fun r => (r.1, [Event.mqttConnect true, Event.serial "Connected to MQTT Broker!",
                         Event.mqttSubscribe mqtt_topic_control] ++ r.2))
    else
      (connect_mqtt outcome fuel (k + 1) s).map
        (fun r => (r.1, [Event.mqttConnect false, Event.serial "Failed with state",
                         Event.delay 2000] ++ r.2))

/-- Lines 74-98: one pass of `loop()`. -/
def loop (fuel : Nat) (t : Tick) (s : State) : Option (State × List Event) :=
  (if !s.mqtt_connected then connect_mqtt t.connect fuel 0 s else some (s, [])).map
    (fun r => ((loopCycle t r.1).1, r.2 ++ (loopCycle t r.1).2))

/-! Section: Observations on traces -/

/-- The message handed to `mqtt_client.publish` in a trace, if there is one. -/
def published : List Event → Option StatusMessage
  | [] => none
  | Event.mqttPublish _ m _ :: _ => some m
  | _ :: es => published es

/-- Number of `mqtt_client.connect` calls in a trace. -/
def attempts : List Event → Nat
  | [] => 0
  | Event.mqttConnect _ :: es => attempts es + 1
  | _ :: es => attempts es

/-- The arguments of the `delay` calls in a trace, in order. -/
def delays : List Event → List Nat
  | [] => []
  | Event.delay ms :: es => ms :: delays es
  | _ :: es => delays es

/-- The trace expected of a `connect_mqtt()` call whose first `n` connection
attempts fail and whose next one succeeds: per failed attempt the attempt, the
diagnostic and a wait of 2000 ms, then the successful attempt, its diagnostic
and the subscription to the control topic. -/
def retryTrace : Nat → List Event
  | 0 => [Event.mqttConnect true, Event.serial "Connected to MQTT Broker!",
          Event.mqttSubscribe mqtt_topic_control]
  | n + 1 => Event.mqttConnect false :: Event.serial "Failed with state"
      :: Event.delay 2000 :: retryTrace n

/-- The three backend channels. -/
inductive Channel where
  | mqtt
  | thingspeak
  | om2m
deriving DecidableEq, Repr

/-- The backend publish operations invoked in a trace, in order. -/
def invocations : List Event → List Channel
  | [] => []
  | Event.mqttPublish _ _ _ :: es => Channel.mqtt :: invocations es
  | Event.update_thingspeak _ :: es => Channel.thingspeak :: invocations es
  | Event.update_om2m _ :: es => Channel.om2m :: invocations es
  | _ :: es => invocations es

/-- Whether an event is a LED write or belongs to a publish. -/
def Event.isSyncEffect : Event → Bool
  | Event.digitalWrite _ _ => true
  | Event.mqttPublish _ _ _ => true
  | Event.update_thingspeak _ => true
  | Event.httpGet _ _ => true
  | Event.update_om2m _ => true
  | Event.httpPost _ _ => true
  | _ => false

/-! Section: Runs of the loop -/

/-- One completed pass of `loop()` within a run: the state before it, its
inputs, the state after it and the events it produced. -/
structure Cycle where
  pre : State
  tick : Tick
  post : State
  events : List Event

/-- Consecutive passes of `loop()`, one per tick, threading the state. -/
def run (fuel : Nat) : List Tick → State → Option (List Cycle)
  | [], _ => some []
  | t :: ts, s =>
    match loop fuel t s with
    | none => none
    | some r => (run fuel ts r.1).map (fun cs => Cycle.mk s t r.1 r.2 :: cs)

/-- A sync cycle ran in this pass (the body of the `if` on line 90). -/
def Cycle.synced (c : Cycle) : Bool := (published c.events).isSome

/-- The pass saw a classification different from the stored state. -/
def Cycle.edge (c : Cycle) : Bool := edgeDue c.tick c.pre

/-- The `status` field published in this pass, if a sync ran. -/
def Cycle.status (c : Cycle) : Option String := (published c.events).map (fun m => m.status)

/-- Number of passes of a run in which a sync ran. -/
def syncCount (cs : List Cycle) : Nat := (cs.filter Cycle.synced).length

/-- The heartbeat disjunct of line 90 is false in every pass of the run that
starts in `s` and is fed `ticks`. -/
def heartbeatSilent : State → List Tick → Bool
  | _, [] => true
  | s, t :: ts => !heartbeatDue t s && heartbeatSilent (loopCycle t s).1 ts

/-- Edge triggering as the specification words it: per sample, `some status`
when the classification of the sample differs from the classification of the
previous one (`prev`), with the status of the new classification. -/
def edgeSyncs : Bool → List Nat → List (Option String)
  | _, [] => []
  | prev, d :: ds =>
    (if decide (0 < d ∧ d < 50) != prev then
      some (if decide (0 < d ∧ d < 50) then "occupied" else "available")
    else none) :: edgeSyncs (decide (0 < d ∧ d < 50)) ds

/-- The `j`-th tick of a steady run: the loop passes once every 1000 ms, every
clock read in the pass shows `1000 * j` ms since boot, and every ping gives
200 cm. -/
def steadyTick (b : Backends) (j : Nat) : Tick :=
  { connect := fun _ => true, distance := 200, now := 1000 * j, pubDistance := 200,
    stamp := 1000 * j, backends := b, done := 1000 * j }

/-- Ticks `j + 1, ..., j + n` of a steady run; `b i` are the backend results
during tick `i`. -/
def steadyFrom (b : Nat → Backends) : Nat → Nat → List Tick
  | _, 0 => []
  | j, n + 1 => steadyTick (b (j + 1)) (j + 1) :: steadyFrom b (j + 1) n

/-- The first `n` ticks of a steady run. -/
def steady (b : Nat → Backends) (n : Nat) : List Tick := steadyFrom b 0 n

/-- A tick of a test run: ping `d` on line 81 and on line 132, all clocks of
the pass at `clock`, all backends failing. -/
def sampleTick (clock d : Nat) : Tick :=
  { connect := fun _ => false, distance := d, now := clock, pubDistance := d,
    stamp := clock, backends := Backends.mk false false (-1) false (-1), done := clock }

/-- The specification's edge scenario: pings 60, 60, 40, 40, 40, one second
apart. -/
def scenario : List Tick :=
  [sampleTick 1000 60, sampleTick 2000 60, sampleTick 3000 40, sampleTick 4000 40,
   sampleTick 5000 40]

/-- The initial state with the broker connection lost. -/
def offline : State := { initial with mqtt_connected := false }

/-- A pass in which the first two connection attempts fail and the third
succeeds; the ping of line 81 gives 40 and the one of line 132 gives 60. -/
def flakyTick : Tick :=
  { connect := fun k => decide (2 ≤ k), distance := 40, now := 5000, pubDistance := 60,
    stamp := 5001, backends := Backends.mk false true (-1) true 201, done := 5002 }

/-! Section: Machine arithmetic lemmas -/

theorem usub_add_left (a e : Nat) : usub ((a + e) % WORD) a = e % WORD := by
  unfold usub WORD
  omega

theorem usub_millis_add (a e : Nat) : usub (millis (a + e)) (millis a) = e % WORD := by
  unfold usub millis WORD
  omega

/-! Section: Traces -/

theorem published_append_quiet (a b : List Event)
    (h : ∀ e, e ∈ a → e.isSyncEffect = false) : published (a ++ b) = published b := by
  induction a with
  | nil => rfl
  | cons x xs ih =>
    have hx := h x (List.mem_cons_self x xs)
    have hxs : ∀ e, e ∈ xs → e.isSyncEffect = false :=
      fun e he => h e (List.mem_cons_of_mem x he)
    cases x <;> simp_all [published, Event.isSyncEffect]

theorem invocations_append (a b : List Event) :
    invocations (a ++ b) = invocations a ++ invocations b := by
  induction a with
  | nil => rfl
  | cons x xs ih => cases x <;> simp [invocations, ih]

theorem invocations_quiet (a : List Event)
    (h : ∀ e, e ∈ a → e.isSyncEffect = false) : invocations a = [] := by
  induction a with
  | nil => rfl
  | cons x xs ih =>
    have hx := h x (List.mem_cons_self x xs)
    have hxs : ∀ e, e ∈ xs → e.isSyncEffect = false :=
      fun e he => h e (List.mem_cons_of_mem x he)
    cases x <;> simp_all [invocations, Event.isSyncEffect]

/-! Section: One pass of the loop -/

theorem loopCycle_idle (t : Tick) (s : State) (h : (edgeDue t s || heartbeatDue t s) = false) :
    loopCycle t s = (s, [Event.mqttLoop, Event.serial "Distance", Event.delay 1000]) := by
  simp [loopCycle, h]

theorem loopCycle_fired (t : Tick) (s : State) (h : (edgeDue t s || heartbeatDue t s) = true) :
    loopCycle t s =
      ({ (update_leds { s with is_occupied := current_status t.distance }).1 with
          last_publish_time := millis t.done },
       [Event.mqttLoop, Event.serial "Distance"]
        ++ (update_leds { s with is_occupied := current_status t.distance }).2
        ++ publish_status (update_leds { s with is_occupied := current_status t.distance }).1
            t.pubDistance t.stamp t.backends
        ++ [Event.delay 1000]) := by
  simp [loopCycle, h]

theorem update_leds_fst (s : State) :
    (update_leds s).1 = { s with red := s.is_occupied, green := !s.is_occupied } := by
  cases s with
  | mk o l c r g => cases o <;> rfl

theorem published_loopCycle (t : Tick) (s : State) :
    published (loopCycle t s).2 =
      if edgeDue t s || heartbeatDue t s then
        some { spot_id := spot_id,
               status := if current_status t.distance then "occupied" else "available",
               distance := t.pubDistance,
               timestamp := millis t.stamp }
      else none := by
  by_cases h : (edgeDue t s || heartbeatDue t s) = true
  · rw [loopCycle_fired t s h, if_pos h]
    simp [update_leds, publish_status, published, digitalWrite, RED_LED, GREEN_LED]
  · have h2 : (edgeDue t s || heartbeatDue t s) = false := by simpa using h
    rw [loopCycle_idle t s h2, if_neg h]
    rfl

theorem loopCycle_connected (t : Tick) (s : State) :
    (loopCycle t s).1.mqtt_connected = s.mqtt_connected := by
  by_cases h : (edgeDue t s || heartbeatDue t s) = true
  · rw [loopCycle_fired t s h, update_leds_fst]
  · have h2 : (edgeDue t s || heartbeatDue t s) = false := by simpa using h
    rw [loopCycle_idle t s h2]

/-! Section: Connecting to the broker -/

theorem connect_mqtt_connected (outcome : Nat → Bool) (fuel k : Nat) (s : State)
    (h : s.mqtt_connected = true) : connect_mqtt outcome fuel k s = some (s, []) := by
  cases fuel <;> simp [connect_mqtt, h]

theorem connect_mqtt_all_fail (fuel k : Nat) (s : State) (h : s.mqtt_connected = false) :
    connect_mqtt (fun _ => false) fuel k s = none := by
  induction fuel generalizing k with
  | zero => simp [connect_mqtt, h]
  | succ n ih => simp [connect_mqtt, h, ih]

theorem connect_mqtt_first_success (outcome : Nat → Bool) (s : State)
    (h : s.mqtt_connected = false) (n : Nat) :
    ∀ fuel k, (∀ m, m < n → outcome (k + m) = false) → outcome (k + n) = true → n < fuel →
      ∃ ev, connect_mqtt outcome fuel k s = some ({ s with mqtt_connected := true }, ev)
        ∧ attempts ev = n + 1 ∧ ∀ e, e ∈ ev → e.isSyncEffect = false := by
  induction n with
  | zero =>
    intro fuel k _ hok hfuel
    obtain ⟨f, rfl⟩ : ∃ f, fuel = f + 1 := ⟨fuel - 1, by omega⟩
    have hok2 : outcome k = true := by simpa using hok
    refine ⟨[Event.mqttConnect true, Event.serial "Connected to MQTT Broker!",
      Event.mqttSubscribe mqtt_topic_control], ?_, ?_, ?_⟩
    · simp [connect_mqtt, h, hok2, connect_mqtt_connected]
    · simp [attempts]
    · intro e he
      simp at he
      rcases he with rfl | rfl | rfl <;> rfl
  | succ n ih =>
    intro fuel k hfail hok hfuel
    obtain ⟨f, rfl⟩ : ∃ f, fuel = f + 1 := ⟨fuel - 1, by omega⟩
    have h0 : outcome k = false := by simpa using hfail 0 (by omega)
    have hfail2 : ∀ m, m < n → outcome (k + 1 + m) = false := by
      intro m hm
      have := hfail (m + 1) (by omega)
      rwa [show k + (m + 1) = k + 1 + m by omega] at this
    have hok2 : outcome (k + 1 + n) = true := by
      rwa [show k + (n + 1) = k + 1 + n by omega] at hok
    obtain ⟨ev, hev, hatt, hq⟩ := ih f (k + 1) hfail2 hok2 (by omega)
    refine ⟨[Event.mqttConnect false, Event.serial "Failed with state", Event.delay 2000] ++ ev,
      ?_, ?_, ?_⟩
    · simp [connect_mqtt, h, h0, hev]
    · simp [attempts, hatt]
    · intro e he
      simp at he
      rcases he with rfl | rfl | rfl | he
      · rfl
      · rfl
      · rfl
      · exact hq e he

theorem connect_mqtt_trace (outcome : Nat → Bool) (s : State)
    (h : s.mqtt_connected = false) (n : Nat) :
    ∀ fuel k, (∀ m, m < n → outcome (k + m) = false) → outcome (k + n) = true → n < fuel →
      connect_mqtt outcome fuel k s = some ({ s with mqtt_connected := true }, retryTrace n) := by
  induction n with
  | zero =>
    intro fuel k _ hok hfuel
    obtain ⟨f, rfl⟩ : ∃ f, fuel = f + 1 := ⟨fuel - 1, by omega⟩
    have hok2 : outcome k = true := by simpa using hok
    simp [connect_mqtt, h, hok2, connect_mqtt_connected, retryTrace]
  | succ n ih =>
    intro fuel k hfail hok hfuel
    obtain ⟨f, rfl⟩ : ∃ f, fuel = f + 1 := ⟨fuel - 1, by omega⟩
    have h0 : outcome k = false := by simpa using hfail 0 (by omega)
    have hfail2 : ∀ m, m < n → outcome (k + 1 + m) = false := by
      intro m hm
      have := hfail (m + 1) (by omega)
      rwa [show k + (m + 1) = k + 1 + m by omega] at this
    have hok2 : outcome (k + 1 + n) = true := by
      rwa [show k + (n + 1) = k + 1 + n by omega] at hok
    have hrec := ih f (k + 1) hfail2 hok2 (by omega)
    simp [connect_mqtt, h, h0, hrec, retryTrace]

theorem attempts_retryTrace (n : Nat) : attempts (retryTrace n) = n + 1 := by
  induction n with
  | zero => rfl
  | succ n ih => simp [retryTrace, attempts, ih]

theorem delays_retryTrace (n : Nat) : delays (retryTrace n) = List.replicate n 2000 := by
  induction n with
  | zero => rfl
  | succ n ih => simp [retryTrace, delays, ih, List.replicate_succ]

theorem connect_mqtt_post (outcome : Nat → Bool) :
    ∀ fuel k s r, connect_mqtt outcome fuel k s = some r → r.1.mqtt_connected = true := by
  intro fuel
  induction fuel with
  | zero =>
    intro k s r hr
    by_cases hc : s.mqtt_connected = true
    · simp [connect_mqtt, hc] at hr
      rw [← hr]; exact hc
    · simp [connect_mqtt, hc] at hr
  | succ f ih =>
    intro k s r hr
    by_cases hc : s.mqtt_connected = true
    · simp [connect_mqtt, hc] at hr
      rw [← hr]; exact hc
    · by_cases ho : outcome k = true
      · simp [connect_mqtt, hc, ho] at hr
        obtain ⟨a, b, hab, rfl⟩ := hr
        exact ih _ _ (a, b) hab
      · simp [connect_mqtt, hc, ho] at hr
        obtain ⟨a, b, hab, rfl⟩ := hr
        exact ih _ _ (a, b) hab

theorem loop_connected (fuel : Nat) (t : Tick) (s : State) (h : s.mqtt_connected = true) :
    loop fuel t s = some (loopCycle t s) := by
  simp [loop, h]

/-- With the broker connected, or some connection attempt within the fuel
succeeding, a pass of `loop()` completes: a connection phase without LED write
or publish, then lines 78-97 on the connected state. -/
theorem loop_returns (fuel : Nat) (t : Tick) (s : State)
    (h : s.mqtt_connected = true ∨ ∃ n, n < fuel ∧ t.connect n = true) :
    ∃ ev, loop fuel t s =
        some ((loopCycle t { s with mqtt_connected := true }).1,
              ev ++ (loopCycle t { s with mqtt_connected := true }).2)
      ∧ ∀ e, e ∈ ev → e.isSyncEffect = false := by
  by_cases hc : s.mqtt_connected = true
  · refine ⟨[], ?_, by simp⟩
    have hs : ({ s with mqtt_connected := true } : State) = s := by
      cases s; simp_all
    rw [hs, loop_connected fuel t s hc]
    simp
  · have hc2 : s.mqtt_connected = false := by simpa using hc
    rcases h with h | ⟨n, hn, hok⟩
    · exact absurd h hc
    · classical
      have hex : ∃ m, t.connect m = true := ⟨n, hok⟩
      have hmin := Nat.find_spec hex
      have hle : Nat.find hex ≤ n := Nat.find_min' hex hok
      have hbelow : ∀ m, m < Nat.find hex → t.connect (0 + m) = false := by
        intro m hm
        have := Nat.find_min hex hm
        simpa using this
      obtain ⟨ev, hev, _, hq⟩ := connect_mqtt_first_success t.connect s hc2 (Nat.find hex)
        fuel 0 hbelow (by simpa using hmin) (by omega)
      refine ⟨ev, ?_, hq⟩
      simp [loop, hc2, hev]

/-! Section: Claims about a single pass -/

/-- Claim C1. The occupancy computed on line 87 of `loop()` is Occupied exactly
for readings strictly between 0 and 50; the no-echo sentinel 0 and every
reading of 50 or more classify as Available. -/
theorem current_status_occupied_iff (d : Nat) :
    (current_status d = true ↔ 0 < d ∧ d < 50)
      ∧ current_status 0 = false
      ∧ current_status (50 + d) = false := by
  refine ⟨?_, by decide, ?_⟩
  · simp [current_status]
  · simp [current_status]

/-- Claim C2, as the specification states it, fails: from the initial state
(state unchanged, last announcement at 0 ms) with the clock at exactly 30000 ms
the stated condition `now - lastAnnouncedAt >= HEARTBEAT_INTERVAL` holds, yet
the pass of `loop()` runs no sync. -/
theorem trigger_silent_at_exact_interval :
    (current_status 200 ≠ initial.is_occupied
        ∨ usub (millis 30000) initial.last_publish_time ≥ publish_interval)
      ∧ (loop 0 (sampleTick 30000 200) initial).map (fun r => (published r.2).isSome)
          = some false := by
  constructor
  · right; decide
  · decide

/-- Claim C2, amended. A pass of `loop()` runs a sync cycle if and only if the
new classification differs from `is_occupied` or strictly more than
`publish_interval` = 30000 ms (subtraction modulo 2^32) have passed since
`last_publish_time`. -/
theorem trigger_fires_iff (fuel : Nat) (t : Tick) (s : State)
    (h : s.mqtt_connected = true ∨ ∃ n, n < fuel ∧ t.connect n = true) :
    ∃ r, loop fuel t s = some r
      ∧ ((published r.2).isSome = true ↔
          (current_status t.distance ≠ s.is_occupied
            ∨ usub (millis t.now) s.last_publish_time > publish_interval)) := by
  obtain ⟨ev, hev, hq⟩ := loop_returns fuel t s h
  refine ⟨_, hev, ?_⟩
  simp only [published_append_quiet _ _ hq, published_loopCycle]
  by_cases hf : (edgeDue t { s with mqtt_connected := true }
      || heartbeatDue t { s with mqtt_connected := true }) = true
  · rw [if_pos hf]
    simp [edgeDue, heartbeatDue] at hf
    simp
    rcases hf with hf | hf
    · left; simpa using hf
    · right; exact hf
  · rw [if_neg hf]
    simp [edgeDue, heartbeatDue] at hf
    simp
    exact ⟨hf.1, by omega⟩

/-- Claim C3. After `update_leds()` the red output is high exactly when
`is_occupied` holds and the green output exactly when it does not, so the two
outputs always differ; a second call with the same state changes nothing and
writes the same levels. -/
theorem update_leds_exclusive (s : State) :
    (update_leds s).1.red = s.is_occupied
      ∧ (update_leds s).1.green = (!s.is_occupied)
      ∧ (update_leds s).1.red ≠ (update_leds s).1.green
      ∧ (update_leds s).2 =
          [Event.digitalWrite RED_LED s.is_occupied, Event.digitalWrite GREEN_LED (!s.is_occupied)]
      ∧ update_leds (update_leds s).1 = update_leds s := by
  cases s with
  | mk o l c r g => cases o <;> simp [update_leds, digitalWrite, RED_LED, GREEN_LED]

/-- Claim C4. `publish_status()` invokes the MQTT publish, `update_thingspeak`
and `update_om2m`, in this order, whatever results the backends give; a pass of
the loop invokes exactly these three when its trigger fires and none
otherwise. -/
theorem publish_status_invokes_all (s : State) (pubDistance stamp : Nat) (b : Backends)
    (t : Tick) :
    invocations (publish_status s pubDistance stamp b)
        = [Channel.mqtt, Channel.thingspeak, Channel.om2m]
      ∧ invocations (loopCycle t s).2 =
          (if edgeDue t s || heartbeatDue t s then
            [Channel.mqtt, Channel.thingspeak, Channel.om2m]
          else []) := by
  have hp : ∀ (s : State) (pd st : Nat) (b : Backends),
      invocations (publish_status s pd st b)
        = [Channel.mqtt, Channel.thingspeak, Channel.om2m] := by
    intro s pd st b
    simp only [publish_status, update_thingspeak, update_om2m]
    by_cases h1 : b.wifiThingspeak = true <;> by_cases h2 : b.wifiOm2m = true
      <;> by_cases h3 : b.thingspeakCode > 0 <;> by_cases h4 : b.om2mCode > 0
      <;> simp [h1, h2, h3, h4, invocations]
  refine ⟨hp s pubDistance stamp b, ?_⟩
  by_cases hf : (edgeDue t s || heartbeatDue t s) = true
  · rw [loopCycle_fired t s hf, if_pos hf]
    simp only [invocations_append, hp]
    simp [invocations, update_leds]
  · have h2 : (edgeDue t s || heartbeatDue t s) = false := by simpa using hf
    rw [loopCycle_idle t s h2, if_neg hf]
    rfl

/-- Claim C5. A pass of `loop()` whose trigger fires stores the new
classification in `is_occupied` and the clock read on line 94 in
`last_publish_time`; a pass whose trigger does not fire leaves both and the LED
levels unchanged and produces no LED write and no publish.  The resulting state
is the same for all backend results. -/
theorem loop_bookkeeping (fuel : Nat) (t : Tick) (s : State)
    (h : s.mqtt_connected = true ∨ ∃ n, n < fuel ∧ t.connect n = true) :
    ∃ r, loop fuel t s = some r
      ∧ (if edgeDue t s || heartbeatDue t s then
          r.1.is_occupied = current_status t.distance
            ∧ r.1.last_publish_time = millis t.done
            ∧ (published r.2).isSome = true
        else
          r.1.is_occupied = s.is_occupied
            ∧ r.1.last_publish_time = s.last_publish_time
            ∧ r.1.red = s.red ∧ r.1.green = s.green
            ∧ r.2.filter Event.isSyncEffect = [])
      ∧ ∀ b, (loop fuel { t with backends := b } s).map (fun x => x.1) = some r.1 := by
  obtain ⟨ev, hev, hq⟩ := loop_returns fuel t s h
  refine ⟨_, hev, ?_, ?_⟩
  · by_cases hf : (edgeDue t s || heartbeatDue t s) = true
    · have hf2 : (edgeDue t { s with mqtt_connected := true }
          || heartbeatDue t { s with mqtt_connected := true }) = true := hf
      rw [if_pos hf]
      simp only [published_append_quiet _ _ hq, published_loopCycle, if_pos hf2]
      rw [loopCycle_fired _ _ hf2, update_leds_fst]
      simp
    · have hf1 : (edgeDue t s || heartbeatDue t s) = false := by simpa using hf
      have hf2 : (edgeDue t { s with mqtt_connected := true }
          || heartbeatDue t { s with mqtt_connected := true }) = false := hf1
      rw [if_neg hf]
      rw [loopCycle_idle _ _ hf2]
      refine ⟨rfl, rfl, rfl, rfl, ?_⟩
      rw [List.filter_eq_nil_iff]
      intro e he
      simp only [Bool.not_eq_true]
      simp at he
      rcases he with he | rfl | rfl | rfl
      · exact hq e he
      · rfl
      · rfl
      · rfl
  · intro b
    obtain ⟨ev2, hev2, _⟩ := loop_returns fuel { t with backends := b } s h
    rw [hev2]
    simp only [Option.map_some']
    congr 1
    by_cases hf : (edgeDue t s || heartbeatDue t s) = true
    · have hf2 : (edgeDue t { s with mqtt_connected := true }
          || heartbeatDue t { s with mqtt_connected := true }) = true := hf
      have hf3 : (edgeDue { t with backends := b } { s with mqtt_connected := true }
          || heartbeatDue { t with backends := b } { s with mqtt_connected := true }) = true := hf
      rw [loopCycle_fired _ _ hf2, loopCycle_fired _ _ hf3]
    · have hf1 : (edgeDue t s || heartbeatDue t s) = false := by simpa using hf
      have hf2 : (edgeDue t { s with mqtt_connected := true }
          || heartbeatDue t { s with mqtt_connected := true }) = false := hf1
      have hf3 : (edgeDue { t with backends := b } { s with mqtt_connected := true }
          || heartbeatDue { t with backends := b } { s with mqtt_connected := true }) = false :=
        hf1
      rw [loopCycle_idle _ _ hf2, loopCycle_idle _ _ hf3]

/-- Claim C10. With `millis()` and `last_publish_time` as 32-bit values and the
subtraction taken modulo 2^32, the heartbeat test of line 90, evaluated when
the clock shows `(last_publish_time + e) mod 2^32` for a true elapsed time
`e < 2^32`, holds exactly when `e > 30000`, also across a wrap of the clock. -/
theorem heartbeat_wraparound (t : Tick) (s : State) (e : Nat) (he : e < WORD)
    (hnow : millis t.now = (s.last_publish_time + e) % WORD) :
    heartbeatDue t s = true ↔ e > publish_interval := by
  unfold heartbeatDue
  rw [hnow, usub_add_left, Nat.mod_eq_of_lt he]
  simp

/-! Section: Runs -/

theorem current_status_eq (d : Nat) : current_status d = decide (0 < d ∧ d < 50) := by
  simp [current_status]

theorem loopCycle_is_occupied (t : Tick) (s : State) (h : heartbeatDue t s = false) :
    (loopCycle t s).1.is_occupied = current_status t.distance := by
  by_cases hf : (edgeDue t s || heartbeatDue t s) = true
  · rw [loopCycle_fired t s hf, update_leds_fst]
  · have h2 : (edgeDue t s || heartbeatDue t s) = false := by simpa using hf
    rw [loopCycle_idle t s h2]
    simp [h, edgeDue] at h2
    exact h2.symm

theorem run_cons_connected (fuel : Nat) (t : Tick) (ts : List Tick) (s : State)
    (h : s.mqtt_connected = true) :
    run fuel (t :: ts) s =
      (run fuel ts (loopCycle t s).1).map
        (fun cs => Cycle.mk s t (loopCycle t s).1 (loopCycle t s).2 :: cs) := by
  simp [run, loop_connected fuel t s h]

theorem run_edge (fuel : Nat) :
    ∀ (ticks : List Tick) (s : State), s.mqtt_connected = true →
      heartbeatSilent s ticks = true →
      ∃ cs, run fuel ticks s = some cs
        ∧ cs.map Cycle.status = edgeSyncs s.is_occupied (ticks.map (fun t => t.distance)) := by
  intro ticks
  induction ticks with
  | nil => intro s _ _; exact ⟨[], rfl, rfl⟩
  | cons t ts ih =>
    intro s hc hs
    simp only [heartbeatSilent, Bool.and_eq_true, Bool.not_eq_true'] at hs
    obtain ⟨hb, hrest⟩ := hs
    have hc2 : (loopCycle t s).1.mqtt_connected = true := by
      rw [loopCycle_connected]; exact hc
    obtain ⟨cs, hrun, hmap⟩ := ih (loopCycle t s).1 hc2 hrest
    refine ⟨Cycle.mk s t (loopCycle t s).1 (loopCycle t s).2 :: cs, ?_, ?_⟩
    · rw [run_cons_connected fuel t ts s hc, hrun]; rfl
    · rw [List.map_cons, hmap, loopCycle_is_occupied t s hb]
      simp only [List.map_cons, edgeSyncs, Cycle.status, published_loopCycle, hb,
        Bool.or_false, edgeDue, ← current_status_eq]
      congr 1
      by_cases he : (current_status t.distance != s.is_occupied) = true
      · simp [he]
      · simp [he]

theorem steadyTick_edge (b : Backends) (j : Nat) (s : State) (h : s.is_occupied = false) :
    edgeDue (steadyTick b j) s = false := by
  simp [edgeDue, steadyTick, h, current_status]

theorem steadyTick_heartbeat (b : Backends) (j p : Nat) (s : State)
    (hl : s.last_publish_time = millis (1000 * p)) (hp : p ≤ j) (hj : j - p ≤ 31) :
    heartbeatDue (steadyTick b j) s = decide (30 < j - p) := by
  have h1 : 1000 * j = 1000 * p + 1000 * (j - p) := by omega
  have h2 : 1000 * (j - p) % WORD = 1000 * (j - p) := by
    apply Nat.mod_eq_of_lt
    unfold WORD
    omega
  simp only [heartbeatDue, steadyTick, hl, h1, usub_millis_add, h2, publish_interval]
  by_cases h : 30 < j - p
  · simp [h]; omega
  · simp [h]; omega

theorem steady_run (fuel : Nat) (b : Nat → Backends) :
    ∀ (n j p : Nat) (s : State), s.is_occupied = false → s.mqtt_connected = true →
      s.last_publish_time = millis (1000 * p) → p ≤ j → j - p ≤ 30 →
      ∃ cs, run fuel (steadyFrom b j n) s = some cs
        ∧ (cs.filter Cycle.synced).map (fun c => (c.edge, c.status))
            = List.replicate ((n + (j - p)) / 31) (false, some "available") := by
  intro n
  induction n with
  | zero =>
    intro j p s _ _ _ _ hjp
    refine ⟨[], rfl, ?_⟩
    have : (0 + (j - p)) / 31 = 0 := by omega
    rw [this]; rfl
  | succ n ih =>
    intro j p s ho hc hl hp hjp
    have hedge := steadyTick_edge (b (j + 1)) (j + 1) s ho
    have hbeat := steadyTick_heartbeat (b (j + 1)) (j + 1) p s hl (by omega) (by omega)
    have hpub := published_loopCycle (steadyTick (b (j + 1)) (j + 1)) s
    by_cases h30 : j - p = 30
    · have hb : heartbeatDue (steadyTick (b (j + 1)) (j + 1)) s = true := by
        rw [hbeat]; simp; omega
      have hf : (edgeDue (steadyTick (b (j + 1)) (j + 1)) s
          || heartbeatDue (steadyTick (b (j + 1)) (j + 1)) s) = true := by simp [hb]
      have hst := loopCycle_fired (steadyTick (b (j + 1)) (j + 1)) s hf
      rw [hf] at hpub
      obtain ⟨cs, hrun, hmap⟩ := ih (j + 1) (j + 1)
        (loopCycle (steadyTick (b (j + 1)) (j + 1)) s).1
        (by rw [hst, update_leds_fst]; simp [steadyTick, current_status])
        (by rw [loopCycle_connected]; exact hc)
        (by rw [hst, update_leds_fst]; simp [steadyTick])
        (le_refl _) (by omega)
      refine ⟨Cycle.mk s (steadyTick (b (j + 1)) (j + 1))
        (loopCycle (steadyTick (b (j + 1)) (j + 1)) s).1
        (loopCycle (steadyTick (b (j + 1)) (j + 1)) s).2 :: cs, ?_, ?_⟩
      · rw [steadyFrom, run_cons_connected fuel _ _ s hc, hrun]; rfl
      · have hs : Cycle.synced (Cycle.mk s (steadyTick (b (j + 1)) (j + 1))
            (loopCycle (steadyTick (b (j + 1)) (j + 1)) s).1
            (loopCycle (steadyTick (b (j + 1)) (j + 1)) s).2) = true := by
          simp [Cycle.synced, hpub]
        rw [List.filter_cons_of_pos hs, List.map_cons, hmap]
        have hq : (n + 1 + (j - p)) / 31 = (n + (j + 1 - (j + 1))) / 31 + 1 := by omega
        rw [hq, List.replicate_succ]
        congr 1
        simp only [Cycle.edge, Cycle.status, hedge, hpub]
        simp [steadyTick, current_status]
    · have hb : heartbeatDue (steadyTick (b (j + 1)) (j + 1)) s = false := by
        rw [hbeat]; simp; omega
      have hf : (edgeDue (steadyTick (b (j + 1)) (j + 1)) s
          || heartbeatDue (steadyTick (b (j + 1)) (j + 1)) s) = false := by simp [hb, hedge]
      have hst := loopCycle_idle (steadyTick (b (j + 1)) (j + 1)) s hf
      rw [hf] at hpub
      obtain ⟨cs, hrun, hmap⟩ := ih (j + 1) p
        (loopCycle (steadyTick (b (j + 1)) (j + 1)) s).1
        (by rw [hst]; exact ho) (by rw [hst]; exact hc) (by rw [hst]; exact hl)
        (by omega) (by omega)
      refine ⟨Cycle.mk s (steadyTick (b (j + 1)) (j + 1))
        (loopCycle (steadyTick (b (j + 1)) (j + 1)) s).1
        (loopCycle (steadyTick (b (j + 1)) (j + 1)) s).2 :: cs, ?_, ?_⟩
      · rw [steadyFrom, run_cons_connected fuel _ _ s hc, hrun]; rfl
      · have hs : ¬ Cycle.synced (Cycle.mk s (steadyTick (b (j + 1)) (j + 1))
            (loopCycle (steadyTick (b (j + 1)) (j + 1)) s).1
            (loopCycle (steadyTick (b (j + 1)) (j + 1)) s).2) = true := by
          simp [Cycle.synced, hpub]
        rw [List.filter_cons_of_neg hs, hmap]
        have hq : (n + 1 + (j - p)) / 31 = (n + (j + 1 - p)) / 31 := by
          congr 1; omega
        rw [hq]

/-! Section: Claims about runs and about the connection loop -/

/-- Claim C6. From the initial state, in a run in which the heartbeat test is
false in every pass, a sync happens in exactly the passes whose classification
differs from the classification of the previous pass (Available before the
first one), and it publishes the status of the new classification. -/
theorem edge_triggered_run (fuel : Nat) (ticks : List Tick)
    (h : heartbeatSilent initial ticks = true) :
    ∃ cs, run fuel ticks initial = some cs
      ∧ cs.map Cycle.status = edgeSyncs false (ticks.map (fun t => t.distance)) :=
  run_edge fuel ticks initial rfl h

/-- Claim C6, the specification's scenario: pings 60, 60, 40, 40, 40 give
exactly one sync, in the third pass, with status "occupied". -/
theorem edge_triggered_run_witness :
    heartbeatSilent initial scenario = true
      ∧ ∃ cs, run 0 scenario initial = some cs
          ∧ cs.map Cycle.status = [none, none, some "occupied", none, none] :=
  ⟨by decide, edge_triggered_run 0 scenario (by decide)⟩

/-- Claim C7, as the specification states it, fails: 60 steady ticks
(2 x 30 ticks, one every 1000 ms, every ping 200) produce one sync, not two. -/
theorem steady_sixty_ticks_one_sync :
    (run 0 (steady (fun _ => Backends.mk true true 200 true 201) 60) initial).map syncCount
        = some 1
      ∧ (run 0 (steady (fun _ => Backends.mk true true 200 true 201) 60) initial).map syncCount
        ≠ some 2 := by
  constructor <;> decide

/-- Claim C7, amended. From the initial state, with one pass every 1000 ms and
every ping 200, the first `n` passes contain exactly `n / 31` syncs (one every
31 passes, so `31 * k` passes contain exactly `k`), every one of them
heartbeat-triggered, none edge-triggered, with status "available", for all
backend results. -/
theorem steady_heartbeat_syncs (fuel : Nat) (b : Nat → Backends) (n k : Nat) :
    (∃ cs, run fuel (steady b n) initial = some cs
      ∧ (cs.filter Cycle.synced).map (fun c => (c.edge, c.status))
          = List.replicate (n / 31) (false, some "available"))
    ∧ (run fuel (steady b (31 * k)) initial).map syncCount = some k := by
  constructor
  · obtain ⟨cs, hrun, hmap⟩ := steady_run fuel b n 0 0 initial rfl rfl rfl (le_refl 0) (by omega)
    exact ⟨cs, hrun, by simpa using hmap⟩
  · obtain ⟨cs, hrun, hmap⟩ :=
      steady_run fuel b (31 * k) 0 0 initial rfl rfl rfl (le_refl 0) (by omega)
    have hlen := congrArg List.length hmap
    simp only [List.length_map, List.length_replicate] at hlen
    have hk : (31 * k + (0 - 0)) / 31 = k := by omega
    rw [steady, hrun]
    simp only [Option.map_some', syncCount, hlen, hk]

/-- Claim C8, evaluated on the code: with ping 40 on line 81 and ping 60 on
line 132 the pass publishes status "occupied" with distance 60. -/
theorem published_distance_is_second_ping :
    (loop 0 { sampleTick 1000 40 with pubDistance := 60 } initial).map (fun r => published r.2)
      = some (some { spot_id := "SPOT_01", status := "occupied", distance := 60,
                     timestamp := 1000 }) := by
  decide

/-- Claim C9, as the specification states it, fails: when the first two
connection attempts fail and the third succeeds, one call of `connect_mqtt()`
makes three attempts and returns connected; when every attempt fails the call
has not returned after 40 rounds. -/
theorem connect_mqtt_three_attempts :
    (connect_mqtt flakyTick.connect 5 0 offline).map
        (fun r => (attempts r.2, r.1.mqtt_connected)) = some (3, true)
      ∧ connect_mqtt (fun _ => false) 40 0 offline = none := by
  constructor <;> decide

/-- Claim C9, amended. Called while disconnected, `connect_mqtt()` keeps
attempting until an attempt succeeds: when attempt number `n` (counted from 0)
is the first to succeed it makes exactly `n + 1` attempts, waits 2000 ms after
each of the `n` failed ones (its trace is `retryTrace n`: attempt, diagnostic
and `delay(2000)` per failure, then the successful attempt and the
subscription) and returns with the client connected, and only then does
`loop()` sample and classify in that pass.  The call never returns with the client disconnected, and when every
attempt fails neither `connect_mqtt()` nor `loop()` returns, whatever the
fuel. -/
theorem connect_mqtt_retries_until_connected (t : Tick) (s : State) (n fuel : Nat)
    (hs : s.mqtt_connected = false) (hfail : ∀ m, m < n → t.connect m = false)
    (hok : t.connect n = true) (hfuel : n < fuel) :
    (∃ ev, connect_mqtt t.connect fuel 0 s = some ({ s with mqtt_connected := true }, ev)
        ∧ attempts ev = n + 1
        ∧ delays ev = List.replicate n 2000
        ∧ ev = retryTrace n
        ∧ loop fuel t s =
            some ((loopCycle t { s with mqtt_connected := true }).1,
                  ev ++ (loopCycle t { s with mqtt_connected := true }).2))
      ∧ (∀ f, (connect_mqtt t.connect f 0 s).map (fun r => r.1.mqtt_connected) ≠ some false)
      ∧ ∀ f, connect_mqtt (fun _ => false) f 0 s = none
          ∧ loop f { t with connect := fun _ => false } s = none := by
  refine ⟨?_, ?_, ?_⟩
  · have hev := connect_mqtt_trace t.connect s hs n fuel 0
      (by simpa using hfail) (by simpa using hok) hfuel
    exact ⟨retryTrace n, hev, attempts_retryTrace n, delays_retryTrace n, rfl,
      by simp [loop, hs, hev]⟩
  · intro f hf
    cases hcm : connect_mqtt t.connect f 0 s with
    | none => simp [hcm] at hf
    | some r =>
      have hpost := connect_mqtt_post t.connect f 0 s r hcm
      simp [hcm, hpost] at hf
  · intro f
    have hnone := connect_mqtt_all_fail f 0 s hs
    exact ⟨hnone, by simp [loop, hs, hnone]⟩

/-- Claim C9, an instance: two failed attempts, then a success. -/
theorem connect_mqtt_retries_until_connected_witness :
    (offline.mqtt_connected = false ∧ flakyTick.connect 0 = false
        ∧ flakyTick.connect 1 = false ∧ flakyTick.connect 2 = true)
      ∧ (∃ ev, connect_mqtt flakyTick.connect 5 0 offline
            = some ({ offline with mqtt_connected := true }, ev)
          ∧ attempts ev = 2 + 1
          ∧ delays ev = List.replicate 2 2000
          ∧ ev = retryTrace 2
          ∧ loop 5 flakyTick offline =
              some ((loopCycle flakyTick { offline with mqtt_connected := true }).1,
                    ev ++ (loopCycle flakyTick { offline with mqtt_connected := true }).2))
      ∧ (∀ f, (connect_mqtt flakyTick.connect f 0 offline).map (fun r => r.1.mqtt_connected)
            ≠ some false)
      ∧ ∀ f, connect_mqtt (fun _ => false) f 0 offline = none
          ∧ loop f { flakyTick with connect := fun _ => false } offline = none :=
  ⟨⟨rfl, rfl, rfl, rfl⟩,
    connect_mqtt_retries_until_connected flakyTick offline 2 5 rfl (by decide) rfl (by decide)⟩

/-- Claim C2, an instance: a pass that first has to reconnect; the
classification changed, so the sync runs. -/
theorem trigger_fires_iff_witness :
    (offline.mqtt_connected = true ∨ ∃ n, n < 5 ∧ flakyTick.connect n = true)
      ∧ ∃ r, loop 5 flakyTick offline = some r
          ∧ ((published r.2).isSome = true ↔
              (current_status flakyTick.distance ≠ offline.is_occupied
                ∨ usub (millis flakyTick.now) offline.last_publish_time > publish_interval)) :=
  ⟨Or.inr ⟨2, by decide, rfl⟩, trigger_fires_iff 5 flakyTick offline (Or.inr ⟨2, by decide, rfl⟩)⟩

/-- Claim C5, an instance: a pass that first has to reconnect and in which
every backend call fails or is answered. -/
theorem loop_bookkeeping_witness :
    (offline.mqtt_connected = true ∨ ∃ n, n < 5 ∧ flakyTick.connect n = true)
      ∧ ∃ r, loop 5 flakyTick offline = some r
          ∧ (if edgeDue flakyTick offline || heartbeatDue flakyTick offline then
              r.1.is_occupied = current_status flakyTick.distance
                ∧ r.1.last_publish_time = millis flakyTick.done
                ∧ (published r.2).isSome = true
            else
              r.1.is_occupied = offline.is_occupied
                ∧ r.1.last_publish_time = offline.last_publish_time
                ∧ r.1.red = offline.red ∧ r.1.green = offline.green
                ∧ r.2.filter Event.isSyncEffect = [])
          ∧ ∀ b, (loop 5 { flakyTick with backends := b } offline).map (fun x => x.1)
              = some r.1 :=
  ⟨Or.inr ⟨2, by decide, rfl⟩, loop_bookkeeping 5 flakyTick offline (Or.inr ⟨2, by decide, rfl⟩)⟩

/-- Claim C10, an instance across the wrap: last publish 7296 ms before the
clock wraps, 40000 ms elapsed, so the clock shows 32704, less than
`last_publish_time`, and the heartbeat test holds. -/
theorem heartbeat_wraparound_witness :
    (40000 < WORD ∧ millis (sampleTick 32704 200).now = (4294960000 + 40000) % WORD)
      ∧ (heartbeatDue (sampleTick 32704 200) { initial with last_publish_time := 4294960000 }
          = true ↔ 40000 > publish_interval) :=
  ⟨⟨by decide, by decide⟩,
    heartbeat_wraparound (sampleTick 32704 200) { initial with last_publish_time := 4294960000 }
      40000 (by decide) (by decide)⟩

end SmartParking
